import Mathlib

/-!
The progress logger and the orchestration of upstash/redis-dump, file `main.go`.

A shallow embedding of `src/main.go`.

* The map `stats map[uint8]int` is an association list with `statsGet`
  (the comma-ok lookup), `statsLen` (`len`) and `statsSet` (assignment).
* An `io.Writer` is the list of the byte strings handed to it, one entry per
  `Fprintf` / `Fprint` call; `streamBytes` concatenates them.
* `uint8` and `uint` values are natural numbers, the conversion `uint8(x)` is
  `x % 256`; `int` values are integers.
-/

namespace RedisDump

/-! ## The progress logger -/

/-- The map type `map[uint8]int`, as an association list. -/
abbrev StatsMap := List (Nat × Int)

/-- The comma-ok lookup `v, ok := m[k]`: `none` when `ok` is false. -/
def statsGet : StatsMap → Nat → Option Int
  | [], _ => none
  | (k', v') :: rest, k => if k' = k then some v' else statsGet rest k

/-- The builtin `len(m)`. -/
def statsLen (m : StatsMap) : Nat := m.length

/-- The assignment `m[k] = v`: overwrite the entry of `k`, or add one. -/
def statsSet : StatsMap → Nat → Int → StatsMap
  | [], k, v => [(k, v)]
  | (k', v') :: rest, k, v =>
    if k' = k then (k, v) :: rest else (k', v') :: statsSet rest k v

/-- The struct `progressLogger`. -/
structure progressLogger where
  stats : StatsMap
deriving DecidableEq, Repr

/-- The constructor `newProgressLogger`: an empty map. -/
def newProgressLogger : progressLogger := ⟨[]⟩

/-- An `io.Writer`: the byte strings written so far, oldest first. -/
abbrev Writer := List String

/-- The bytes a writer has received, in order. -/
def streamBytes (w : Writer) : String := String.join w

/-- The verb `%d` applied to a `uint8`. -/
def fmtUint8 (db : Nat) : String := toString db

/-- The verb `%d` applied to an `int`. -/
def fmtInt (n : Int) : String := toString n

/-- The text `Sprintf("\rDatabase %d: %d keys dumped", db, nDumped)`. -/
def statusText (db : Nat) (nDumped : Int) : String :=
  "\rDatabase " ++ fmtUint8 db ++ ": " ++ fmtInt nDumped ++ " keys dumped"

/-- The method `drawProgress`: the logger and the writer after the call. -/
def drawProgress (p : progressLogger) (out : Writer) (db : Nat) (nDumped : Int) :
    progressLogger × Writer :=
  let to1 : Writer :=
    if (statsGet p.stats db).isNone && decide (statsLen p.stats > 0) then
      out ++ ["\n"]
    else out
  let p1 : progressLogger := ⟨statsSet p.stats db nDumped⟩
  if nDumped = 0 then (p1, to1)
  else (p1, to1 ++ [statusText db nDumped])

/-! ## The aggregator goroutine -/

/-- Modelled from the spec: the struct `redisdump.ProgressNotification`, whose
declaration is outside `main.go`; `drawProgress` takes its fields `Db` (a
`uint8`) and `Done` (an `int`). -/
structure ProgressNotification where
  Db : Nat
  Done : Int
deriving DecidableEq, Repr

/-- The state of the goroutine `for n := range progressNotifs`: the logger
`pl`, what it has written to `os.Stderr`, and how many notifications it has
taken from the channel. -/
structure Aggregator where
  pl : progressLogger
  written : Writer
  received : Nat
deriving DecidableEq, Repr

/-- The state before the first notification. -/
def Aggregator.start : Aggregator := ⟨newProgressLogger, [], 0⟩

/-- One iteration of the loop body: draw unless silent. -/
def aggregatorStep (silent : Bool) (a : Aggregator) (n : ProgressNotification) :
    Aggregator :=
  if !silent then
    let r := drawProgress a.pl a.written n.Db n.Done
    ⟨r.1, r.2, a.received + 1⟩
  else ⟨a.pl, a.written, a.received + 1⟩

/-- The whole loop, over the notifications sent before the channel is closed. -/
def aggregate (silent : Bool) (a : Aggregator) :
    List ProgressNotification → Aggregator
  | [] => a
  | n :: rest => aggregate silent (aggregatorStep silent a n) rest

/-! ## Flags and the dump engine -/

/-- The flag values after `flag.Parse()`, with `passed` the names of the flags
set on the command line (those `flag.Visit` visits). -/
structure Flags where
  host : String
  port : Int
  pass : String
  db : Nat
  filter : String
  noscan : Bool
  batchSize : Int
  nWorkers : Int
  withTTL : Bool
  output : String
  silent : Bool
  tls : Bool
  caCert : String
  cert : String
  key : String
  passed : List String

/-- The function `isFlagPassed`: visit the set flags, remember a match. -/
def isFlagPassed (passed : List String) (name : String) : Bool :=
  passed.foldl (fun found f => if f = name then true else found) false

/-- Modelled from the spec: the value of `redisdump.NewTlsHandler`, declared
outside `main.go`, kept as the four arguments of the call (enabled flag,
CA-certificate path, client-certificate path, client-key path). -/
structure TlsHandler where
  enabled : Bool
  caCert : String
  cert : String
  key : String
deriving DecidableEq, Repr

/-- Modelled from the spec: `redisdump.NewTlsHandler`, the constructor of the
security config. -/
def NewTlsHandler (enabled : Bool) (caCert cert key : String) : TlsHandler :=
  ⟨enabled, caCert, cert, key⟩

/-- Modelled from the spec: the two serializer functions of package
`redisdump`, passed opaquely, so kept by name. -/
inductive Serializer where
  | RESPSerializer
  | RedisCmdSerializer
deriving DecidableEq, Repr

/-- The arguments `DumpServer` and `DumpDB` have in common, in call order. -/
structure DumpArgs where
  host : String
  port : Int
  pass : String
  tlshandler : Option TlsHandler
  filter : String
  nWorkers : Int
  withTTL : Bool
  batchSize : Int
  noscan : Bool
  serializer : Serializer
deriving DecidableEq, Repr

/-- A call of the dump engine: `DumpDB` has the `uint8` database as well. -/
inductive EngineCall where
  | DumpServer (a : DumpArgs)
  | DumpDB (a : DumpArgs) (db : Nat)
deriving DecidableEq, Repr

/-- What a call of the engine does, seen from `main.go`: the notifications it
sends on the channel before it returns, and the error it returns if any. -/
structure EngineResult where
  events : List ProgressNotification
  err : Option String
deriving DecidableEq, Repr

/-- The code outside `main.go`: `url.QueryEscape` and the dump engine. -/
structure Env where
  queryEscape : String → String
  engine : EngineCall → EngineResult

/-! ## The function `realMain` -/

/-- The actions of the main goroutine, in program order. -/
inductive Step where
  | logFatalf (msg : String)
  | makeChan
  | wgAdd (n : Nat)
  | goAggregator
  | call (c : EngineCall)
  | stderrWrite (s : String)
  | closeChan
  | wgWait
deriving DecidableEq, Repr

/-- A finished run: the actions of the main goroutine, the aggregator when it
ended, and the exit status. -/
structure Run where
  trace : List Step
  agg : Aggregator
  exitCode : Nat
deriving DecidableEq, Repr

/-- The switch on `*output`: `none` is the `default` branch. -/
def selectSerializer (output : String) : Option Serializer :=
  if output = "resp" then some Serializer.RESPSerializer
  else if output = "commands" then some Serializer.RedisCmdSerializer
  else none

/-- The deferred function: close the channel, wait, write the line break
unless silent. -/
def shutdown (silent : Bool) : List Step :=
  [Step.closeChan, Step.wgWait] ++ (if !silent then [Step.stderrWrite "\n"] else [])

/-- Lines 69 to 71: `db` is nil unless the flag `db` was passed. -/
def resolveDb (f : Flags) : Option Nat :=
  if !isFlagPassed f.passed "db" then none else some f.db

/-- Lines 72 to 76: the handler is built, with `*tls` set to true, only when
the flag `tls` was passed; otherwise it stays nil. -/
def resolveTls (f : Flags) : Option TlsHandler :=
  if isFlagPassed f.passed "tls" then
    some (NewTlsHandler true f.caCert f.cert f.key)
  else none

/-- The arguments of the engine call on lines 113 and 118. -/
def dumpArgs (env : Env) (f : Flags) (serializer : Serializer) : DumpArgs :=
  ⟨f.host, f.port, env.queryEscape f.pass, resolveTls f, f.filter, f.nWorkers,
    f.withTTL, f.batchSize, f.noscan, serializer⟩

/-- The branch on `db == nil`: `DumpServer`, or `DumpDB` with `uint8(*db)`. -/
def dispatch (env : Env) (f : Flags) (serializer : Serializer) : EngineCall :=
  match resolveDb f with
  | none => EngineCall.DumpServer (dumpArgs env f serializer)
  | some v => EngineCall.DumpDB (dumpArgs env f serializer) (v % 256)

/-- The function `realMain` followed by `os.Exit`. The deferred function runs
at both `return`s; `log.Fatalf` exits with status 1 before it is registered. -/
def realMain (env : Env) (f : Flags) : Run :=
  match selectSerializer f.output with
  | none =>
    ⟨[Step.logFatalf "Failed parsing parameter flag: can only be resp or json"],
      Aggregator.start, 1⟩
  | some serializer =>
    let setup : List Step := [Step.makeChan, Step.wgAdd 1, Step.goAggregator]
    let c : EngineCall := dispatch env f serializer
    let r : EngineResult := env.engine c
    let agg : Aggregator := aggregate f.silent Aggregator.start r.events
    match r.err with
    | some e =>
      ⟨setup ++ [Step.call c, Step.stderrWrite e] ++ shutdown f.silent, agg, 1⟩
    | none => ⟨setup ++ [Step.call c] ++ shutdown f.silent, agg, 0⟩

/-- The common arguments of an engine call. -/
def callArgs : EngineCall → DumpArgs
  | EngineCall.DumpServer a => a
  | EngineCall.DumpDB a _ => a

/-- The engine calls of a trace, in order. -/
def engineCalls : List Step → List EngineCall
  | [] => []
  | Step.call c :: rest => c :: engineCalls rest
  | _ :: rest => engineCalls rest

/-- The strings the main goroutine writes to `os.Stderr`, in order. -/
def mainWrites : List Step → Writer
  | [] => []
  | Step.stderrWrite s :: rest => s :: mainWrites rest
  | _ :: rest => mainWrites rest

/-- The status stream of a run: what the aggregator wrote, then what the main
goroutine wrote. When the engine succeeds the only write of the main goroutine
comes after `wg.Wait()`, so this is the order on `os.Stderr`. -/
def statusStream (r : Run) : Writer := r.agg.written ++ mainWrites r.trace

/-- The notifications of a list, as pairs. -/
def notifs : List (Nat × Int) → List ProgressNotification
  | [] => []
  | (d, n) :: rest => ⟨d, n⟩ :: notifs rest

/-- An engine that sends the given notifications and returns the given error. -/
def scriptedEnv (events : List (Nat × Int)) (err : Option String) : Env :=
  ⟨fun s => s, fun _ => ⟨notifs events, err⟩⟩

/-- Flags at their defaults. -/
def defaultFlags : Flags :=
  ⟨"127.0.0.1", 6379, "", 0, "*", false, 1000, 10, true, "resp", false, false,
    "", "", "", []⟩

/-! ## Lemmas on the map -/

theorem statsGet_statsSet_self (m : StatsMap) (k : Nat) (v : Int) :
    statsGet (statsSet m k v) k = some v := by
  induction m with
  | nil => simp [statsSet, statsGet]
  | cons e rest ih =>
    obtain ⟨k', v'⟩ := e
    by_cases h : k' = k
    · simp [statsSet, statsGet, h]
    · simp [statsSet, statsGet, h, ih]

theorem statsGet_statsSet_other (m : StatsMap) (k k2 : Nat) (v : Int) (hk : k2 ≠ k) :
    statsGet (statsSet m k v) k2 = statsGet m k2 := by
  induction m with
  | nil => simp [statsSet, statsGet, Ne.symm hk]
  | cons e rest ih =>
    obtain ⟨k', v'⟩ := e
    by_cases h : k' = k
    · subst h
      simp [statsSet, statsGet, Ne.symm hk]
    · by_cases h2 : k' = k2
      · subst h2
        simp [statsSet, statsGet, h]
      · simp [statsSet, statsGet, h, h2, ih]

theorem statsSet_ne_nil (m : StatsMap) (k : Nat) (v : Int) : statsSet m k v ≠ [] := by
  cases m with
  | nil => simp [statsSet]
  | cons e rest =>
    obtain ⟨k', v'⟩ := e
    by_cases h : k' = k <;> simp [statsSet, h]

theorem statsLen_pos_iff (m : StatsMap) : 0 < statsLen m ↔ m ≠ [] := by
  cases m <;> simp [statsLen]

/-- What `drawProgress` appends to the writer. -/
theorem drawProgress_written (p : progressLogger) (out : Writer) (db : Nat) (n : Int) :
    (drawProgress p out db n).2 =
      out ++ (if statsGet p.stats db = none ∧ 0 < statsLen p.stats then ["\n"] else [])
        ++ (if n = 0 then [] else [statusText db n]) := by
  unfold drawProgress
  by_cases h1 : statsGet p.stats db = none <;> by_cases h2 : 0 < statsLen p.stats <;>
    by_cases h3 : n = 0 <;> simp [h1, h2, h3]

theorem drawProgress_stats (p : progressLogger) (out : Writer) (db : Nat) (n : Int) :
    (drawProgress p out db n).1.stats = statsSet p.stats db n := by
  unfold drawProgress
  by_cases h3 : n = 0 <;> simp [h3]

theorem statsGet_eq_lookup (m : StatsMap) (k : Nat) : statsGet m k = m.lookup k := by
  induction m with
  | nil => rfl
  | cons e rest ih =>
    obtain ⟨k', v'⟩ := e
    by_cases h : k' = k
    · subst h
      simp [statsGet, List.lookup]
    · have h2 : (k == k') = false := by
        rw [beq_eq_false_iff_ne]
        exact fun h3 => h h3.symm
      simp [statsGet, List.lookup, h, h2, ih]

theorem statsGet_none_iff (m : StatsMap) (k : Nat) :
    statsGet m k = none ↔ k ∉ m.map Prod.fst := by
  induction m with
  | nil => simp [statsGet]
  | cons e rest ih =>
    obtain ⟨k', v'⟩ := e
    by_cases h : k' = k
    · simp [statsGet, h]
    · have h2 : ¬ k = k' := fun h3 => h h3.symm
      simp [statsGet, h, h2, ih]

theorem statsSet_length (m : StatsMap) (k : Nat) (v : Int) :
    (statsSet m k v).length = if k ∈ m.map Prod.fst then m.length else m.length + 1 := by
  induction m with
  | nil => simp [statsSet]
  | cons e rest ih =>
    obtain ⟨k', v'⟩ := e
    by_cases h : k' = k
    · simp [statsSet, h]
    · have h2 : ¬ k = k' := fun h3 => h h3.symm
      by_cases h3 : k ∈ rest.map Prod.fst
      · simp only [statsSet, h, if_false, List.length_cons, ih, if_pos h3, List.map_cons,
          List.mem_cons, h2, false_or]
      · simp only [statsSet, h, if_false, List.length_cons, ih, if_neg h3, List.map_cons,
          List.mem_cons, h2, false_or]

/-! ## Claims on `drawProgress` -/

/-- C1: `drawProgress` appends to the writer exactly a line break when `db` is
not a key of `stats` and `stats` is not empty, then the text made of a carriage
return, `Database `, `db` in decimal, `: `, `n` in decimal and ` keys dumped`
when `n` is not 0, and nothing else; afterwards `stats` maps `db` to `n`, maps
every other key as before, and has one entry more exactly when `db` was not a
key. -/
theorem drawProgress_contract (p : progressLogger) (out : Writer) (db : Nat) (n : Int) :
    (drawProgress p out db n).2 =
        out ++ (if db ∉ p.stats.map Prod.fst ∧ p.stats ≠ [] then ["\n"] else [])
          ++ (if n ≠ 0 then ["\rDatabase " ++ toString db ++ ": " ++ toString n ++ " keys dumped"]
              else [])
      ∧ (drawProgress p out db n).1.stats.lookup db = some n
      ∧ (∀ k, k ≠ db → (drawProgress p out db n).1.stats.lookup k = p.stats.lookup k)
      ∧ (drawProgress p out db n).1.stats.length =
          (if db ∈ p.stats.map Prod.fst then p.stats.length else p.stats.length + 1) := by
  refine ⟨?_, ?_, ?_, ?_⟩
  · rw [drawProgress_written]
    have hg : (statsGet p.stats db = none ∧ 0 < statsLen p.stats)
        ↔ (db ∉ p.stats.map Prod.fst ∧ p.stats ≠ []) := by
      rw [statsGet_none_iff, statsLen_pos_iff]
    by_cases h3 : n = 0 <;> by_cases h4 : db ∉ p.stats.map Prod.fst ∧ p.stats ≠ []
    · rw [if_pos (hg.mpr h4), if_pos h4]
      simp [h3]
    · rw [if_neg (fun h => h4 (hg.mp h)), if_neg h4]
      simp [h3]
    · rw [if_pos (hg.mpr h4), if_pos h4]
      simp [h3, statusText, fmtUint8, fmtInt]
    · rw [if_neg (fun h => h4 (hg.mp h)), if_neg h4]
      simp [h3, statusText, fmtUint8, fmtInt]
  · rw [drawProgress_stats, ← statsGet_eq_lookup]
    exact statsGet_statsSet_self _ _ _
  · intro k hk
    rw [drawProgress_stats, ← statsGet_eq_lookup, ← statsGet_eq_lookup]
    exact statsGet_statsSet_other _ _ _ _ hk
  · rw [drawProgress_stats]
    exact statsSet_length _ _ _

/-- C1, at four calls: a new database in a non-empty state with count 7, the
empty state with the negative count -3, a tracked database with count 1204,
and a tracked database with count 0; then the map after the first call. -/
theorem drawProgress_contract_witness :
    (drawProgress ⟨[(0, 5)]⟩ ["a"] 1 7).2 = ["a", "\n", "\rDatabase 1: 7 keys dumped"]
      ∧ (drawProgress ⟨[]⟩ [] 255 (-3)).2 = ["\rDatabase 255: -3 keys dumped"]
      ∧ (drawProgress ⟨[(0, 5), (2, 1)]⟩ [] 2 1204).2 = ["\rDatabase 2: 1204 keys dumped"]
      ∧ (drawProgress ⟨[(0, 5)]⟩ ["a"] 0 0).2 = ["a"]
      ∧ (drawProgress ⟨[(0, 5)]⟩ ["a"] 1 7).1.stats.lookup 1 = some 7
      ∧ (drawProgress ⟨[(0, 5)]⟩ ["a"] 1 7).1.stats.lookup 0 = some 5
      ∧ (drawProgress ⟨[(0, 5)]⟩ ["a"] 1 7).1.stats.length = 2 :=
  ⟨(drawProgress_contract ⟨[(0, 5)]⟩ ["a"] 1 7).1.trans (by decide),
    (drawProgress_contract ⟨[]⟩ [] 255 (-3)).1.trans (by decide),
    (drawProgress_contract ⟨[(0, 5), (2, 1)]⟩ [] 2 1204).1.trans (by decide),
    (drawProgress_contract ⟨[(0, 5)]⟩ ["a"] 0 0).1.trans (by decide),
    (drawProgress_contract ⟨[(0, 5)]⟩ ["a"] 1 7).2.1,
    ((drawProgress_contract ⟨[(0, 5)]⟩ ["a"] 1 7).2.2.1 0 (by decide)).trans (by decide),
    (drawProgress_contract ⟨[(0, 5)]⟩ ["a"] 1 7).2.2.2.trans (by decide)⟩

/-- C4, refuted as stated: with database 0 tracked, `drawProgress` for the
untracked database 1 with count 0 sets its count to 0 but writes one byte, the
line break. -/
theorem drawProgress_zero_counterexample :
    statsGet (drawProgress ⟨[(0, 5)]⟩ [] 1 0).1.stats 1 = some 0
      ∧ (drawProgress ⟨[(0, 5)]⟩ [] 1 0).2 = ["\n"]
      ∧ streamBytes (drawProgress ⟨[(0, 5)]⟩ [] 1 0).2 = "\n"
      ∧ (streamBytes (drawProgress ⟨[(0, 5)]⟩ [] 1 0).2).length = 1 := by
  decide

/-- C4, amended: `drawProgress` with count 0 sets the tracked count of `db` to
0 and writes no status text: it writes nothing when `db` is already a key or
`stats` is empty, and exactly one line break otherwise. -/
theorem drawProgress_zero (p : progressLogger) (out : Writer) (db : Nat) :
    statsGet (drawProgress p out db 0).1.stats db = some 0
      ∧ (drawProgress p out db 0).2 =
          out ++ (if statsGet p.stats db = none ∧ 0 < statsLen p.stats then ["\n"] else [])
      ∧ ((statsGet p.stats db ≠ none ∨ statsLen p.stats = 0) →
          (drawProgress p out db 0).2 = out) := by
  have hw : (drawProgress p out db 0).2 =
      out ++ (if statsGet p.stats db = none ∧ 0 < statsLen p.stats then ["\n"] else []) := by
    rw [drawProgress_written]
    simp
  refine ⟨?_, hw, ?_⟩
  · rw [drawProgress_stats]
    exact statsGet_statsSet_self _ _ _
  · intro h
    rw [hw]
    rcases h with h | h
    · simp [h]
    · simp [h]

/-- C4 amended, at a tracked database and at the empty state: nothing is
written. -/
theorem drawProgress_zero_witness :
    (drawProgress ⟨[(0, 5)]⟩ ["x"] 0 0).2 = ["x"]
      ∧ (drawProgress ⟨[]⟩ ["x"] 3 0).2 = ["x"] :=
  ⟨(drawProgress_zero ⟨[(0, 5)]⟩ ["x"] 0).2.2 (Or.inl (by decide)),
    (drawProgress_zero ⟨[]⟩ ["x"] 3).2.2 (Or.inr (by decide))⟩

/-! ## Lemmas on the aggregator loop -/

theorem aggregate_append (silent : Bool) (a : Aggregator)
    (xs ys : List ProgressNotification) :
    aggregate silent a (xs ++ ys) = aggregate silent (aggregate silent a xs) ys := by
  induction xs generalizing a with
  | nil => rfl
  | cons x rest ih => simp [aggregate, ih]

theorem aggregatorStep_stats (a : Aggregator) (e : ProgressNotification) :
    (aggregatorStep false a e).pl.stats = statsSet a.pl.stats e.Db e.Done := by
  simp [aggregatorStep, drawProgress_stats]

theorem aggregatorStep_written (a : Aggregator) (e : ProgressNotification) :
    (aggregatorStep false a e).written =
      a.written
        ++ (if statsGet a.pl.stats e.Db = none ∧ 0 < statsLen a.pl.stats then ["\n"] else [])
        ++ (if e.Done = 0 then [] else [statusText e.Db e.Done]) := by
  simp [aggregatorStep, drawProgress_written]

theorem aggregate_received (silent : Bool) (a : Aggregator)
    (es : List ProgressNotification) :
    (aggregate silent a es).received = a.received + es.length := by
  induction es generalizing a with
  | nil => rfl
  | cons e rest ih =>
    rw [aggregate, ih]
    cases silent <;> simp [aggregatorStep] <;> omega

theorem aggregate_silent_written (a : Aggregator) (es : List ProgressNotification) :
    (aggregate true a es).written = a.written := by
  induction es generalizing a with
  | nil => rfl
  | cons e rest ih =>
    rw [aggregate, ih]
    simp [aggregatorStep]

theorem aggregate_written_extends (a : Aggregator) (es : List ProgressNotification) :
    ∃ ws, (aggregate false a es).written = a.written ++ ws := by
  induction es generalizing a with
  | nil => exact ⟨[], by simp [aggregate]⟩
  | cons e rest ih =>
    obtain ⟨ws, hws⟩ := ih (aggregatorStep false a e)
    rw [aggregate, hws, aggregatorStep_written]
    exact ⟨_, by rw [List.append_assoc, List.append_assoc, ← List.append_assoc _ _ ws]⟩

theorem aggregate_untracked (a : Aggregator) (es : List ProgressNotification) (d : Nat)
    (ha : statsGet a.pl.stats d = none) (hes : ∀ e ∈ es, e.Db ≠ d) :
    statsGet (aggregate false a es).pl.stats d = none := by
  induction es generalizing a with
  | nil => simpa [aggregate] using ha
  | cons e rest ih =>
    rw [aggregate]
    apply ih
    · rw [aggregatorStep_stats, statsGet_statsSet_other _ _ _ _ (Ne.symm (hes e (by simp)))]
      exact ha
    · intro e2 he2
      exact hes e2 (by simp [he2])

/-- The last notification, when its count is not 0, ends the output with its
status text. -/
theorem aggregate_snoc_written (a : Aggregator) (es : List ProgressNotification)
    (d : Nat) (n : Int) (hn : n ≠ 0) :
    ∃ ws, (aggregate false a (es ++ [⟨d, n⟩])).written = a.written ++ ws ++ [statusText d n] := by
  obtain ⟨ws, hws⟩ := aggregate_written_extends a es
  rw [aggregate_append]
  simp only [aggregate]
  rw [aggregatorStep_written, hws]
  simp only [hn, if_false]
  exact ⟨ws ++ (if statsGet (aggregate false a es).pl.stats d = none
      ∧ 0 < statsLen (aggregate false a es).pl.stats then ["\n"] else []),
    by simp [List.append_assoc]⟩

/-- A database that is not tracked, in a state that tracks another one, gets a
line break before its next status text. -/
theorem aggregate_break_before_new (a : Aggregator) (es : List ProgressNotification)
    (d : Nat) (n : Int) (hn : n ≠ 0) (hd : statsGet a.pl.stats d = none)
    (hne : 0 < statsLen a.pl.stats) :
    ∃ mid, (aggregate false a (es ++ [⟨d, n⟩])).written
        = a.written ++ mid ++ [statusText d n] ∧ "\n" ∈ mid := by
  induction es generalizing a with
  | nil =>
    refine ⟨["\n"], ?_, by simp⟩
    simp [aggregate, aggregatorStep_written, hd, hne, hn]
  | cons e rest ih =>
    by_cases he : e.Db = d
    · obtain ⟨ws, hws⟩ := aggregate_snoc_written (aggregatorStep false a e) rest d n hn
      have hw := aggregatorStep_written a e
      rw [he] at hw
      simp only [hd, hne, and_self, if_true] at hw
      refine ⟨["\n"] ++ (if e.Done = 0 then [] else [statusText d e.Done]) ++ ws, ?_, by simp⟩
      rw [List.cons_append, aggregate, hws, hw]
      simp [List.append_assoc]
    · have hd1 : statsGet (aggregatorStep false a e).pl.stats d = none := by
        rw [aggregatorStep_stats, statsGet_statsSet_other _ _ _ _ (Ne.symm he)]
        exact hd
      have hne1 : 0 < statsLen (aggregatorStep false a e).pl.stats := by
        rw [aggregatorStep_stats, statsLen_pos_iff]
        exact statsSet_ne_nil _ _ _
      obtain ⟨mid, hmid, hmem⟩ := ih (aggregatorStep false a e) hd1 hne1
      refine ⟨(if statsGet a.pl.stats e.Db = none ∧ 0 < statsLen a.pl.stats then ["\n"] else [])
        ++ (if e.Done = 0 then [] else [statusText e.Db e.Done]) ++ mid, ?_, by simp [hmem]⟩
      rw [List.cons_append, aggregate, hmid, aggregatorStep_written]
      simp [List.append_assoc]

/-! ## Claims on the rendered output -/

/-- C2: at the notifications (0,5), (1,1), (0,9) from the empty state, not
silent, the code writes the text of database 0, a line break, the text of
database 1 and, directly after it, the text of database 0 again: the two last
writes are status texts of different databases with no line break between
them, and the whole output holds one line break for two changes of label. -/
theorem aggregate_switch_back_same_line :
    (aggregate false Aggregator.start (notifs [(0, 5), (1, 1), (0, 9)])).written
        = ["\rDatabase 0: 5 keys dumped", "\n", "\rDatabase 1: 1 keys dumped",
            "\rDatabase 0: 9 keys dumped"]
      ∧ streamBytes (aggregate false Aggregator.start
          (notifs [(0, 5), (1, 1), (0, 9)])).written
        = "\rDatabase 0: 5 keys dumped\n\rDatabase 1: 1 keys dumped\rDatabase 0: 9 keys dumped"
      ∧ "\n" ∉ (aggregate false Aggregator.start
          (notifs [(0, 5), (1, 1), (0, 9)])).written.drop 2
      ∧ ((streamBytes (aggregate false Aggregator.start
          (notifs [(0, 5), (1, 1), (0, 9)])).written).toList.filter
            (fun c => c = Char.ofNat 10)).length = 1 := by
  refine ⟨by decide, by decide, by decide, by decide⟩

/-- What the guard on line 26 does give: from the empty state, not silent, when
the status text of database `d` is rendered after the status text of a
different database `d2` and no notification of `d` had been received before
that text of `d2`, a line break is written between the two. -/
theorem aggregate_break_on_new_database (es1 es2 : List ProgressNotification)
    (d2 d : Nat) (n2 n : Int) (hn2 : n2 ≠ 0) (hn : n ≠ 0) (hd : d ≠ d2)
    (hnew : ∀ e ∈ es1, e.Db ≠ d) :
    ∃ pre mid,
      (aggregate false Aggregator.start (es1 ++ [⟨d2, n2⟩])).written
          = pre ++ [statusText d2 n2]
        ∧ (aggregate false Aggregator.start (es1 ++ [⟨d2, n2⟩] ++ es2 ++ [⟨d, n⟩])).written
          = pre ++ [statusText d2 n2] ++ mid ++ [statusText d n]
        ∧ "\n" ∈ mid := by
  obtain ⟨ws, hws⟩ := aggregate_snoc_written Aggregator.start es1 d2 n2 hn2
  have hd1 : statsGet (aggregate false Aggregator.start (es1 ++ [⟨d2, n2⟩])).pl.stats d
      = none := by
    apply aggregate_untracked
    · rfl
    · intro e he
      rcases List.mem_append.mp he with h | h
      · exact hnew e h
      · rw [List.mem_singleton.mp h]
        exact Ne.symm hd
  have hne1 : 0 < statsLen (aggregate false Aggregator.start (es1 ++ [⟨d2, n2⟩])).pl.stats := by
    rw [aggregate_append]
    simp only [aggregate]
    rw [aggregatorStep_stats, statsLen_pos_iff]
    exact statsSet_ne_nil _ _ _
  obtain ⟨mid, hmid, hmem⟩ := aggregate_break_before_new
    (aggregate false Aggregator.start (es1 ++ [⟨d2, n2⟩])) es2 d n hn hd1 hne1
  refine ⟨Aggregator.start.written ++ ws, mid, hws, ?_, hmem⟩
  rw [List.append_assoc _ es2, aggregate_append, hmid, hws]

/-- The line break before a new database, at (0,5), (1,0), (1,3): database 1 is
new after the status text of database 0, and a line break stands between the
two status texts. -/
theorem aggregate_break_on_new_database_witness :
    ∃ pre mid,
      (aggregate false Aggregator.start ([] ++ [⟨0, 5⟩])).written = pre ++ [statusText 0 5]
        ∧ (aggregate false Aggregator.start ([] ++ [⟨0, 5⟩] ++ [⟨1, 0⟩] ++ [⟨1, 3⟩])).written
          = pre ++ [statusText 0 5] ++ mid ++ [statusText 1 3]
        ∧ "\n" ∈ mid :=
  aggregate_break_on_new_database [] [⟨1, 0⟩] 0 1 5 3 (by decide) (by decide) (by decide)
    (by simp)

/-! ## Lemmas on `realMain` -/

theorem isFlagPassed_foldl (passed : List String) (name : String) (acc : Bool) :
    passed.foldl (fun found f => if f = name then true else found) acc = true
      ↔ acc = true ∨ name ∈ passed := by
  induction passed generalizing acc with
  | nil => simp
  | cons x rest ih =>
    rw [List.foldl_cons, ih]
    by_cases hx : x = name
    · simp [hx]
    · have hx2 : ¬ name = x := fun h => hx h.symm
      simp [hx, hx2]

theorem isFlagPassed_iff (passed : List String) (name : String) :
    isFlagPassed passed name = true ↔ name ∈ passed := by
  unfold isFlagPassed
  rw [isFlagPassed_foldl]
  simp

theorem resolveDb_passed (f : Flags) (h : "db" ∈ f.passed) : resolveDb f = some f.db := by
  simp [resolveDb, (isFlagPassed_iff f.passed "db").mpr h]

theorem resolveDb_absent (f : Flags) (h : "db" ∉ f.passed) : resolveDb f = none := by
  have h2 : isFlagPassed f.passed "db" = false := by
    rw [← Bool.not_eq_true, isFlagPassed_iff]
    exact h
  simp [resolveDb, h2]

theorem resolveTls_passed (f : Flags) (h : "tls" ∈ f.passed) :
    resolveTls f = some (NewTlsHandler true f.caCert f.cert f.key) := by
  simp [resolveTls, (isFlagPassed_iff f.passed "tls").mpr h]

theorem resolveTls_absent (f : Flags) (h : "tls" ∉ f.passed) : resolveTls f = none := by
  have h2 : isFlagPassed f.passed "tls" = false := by
    rw [← Bool.not_eq_true, isFlagPassed_iff]
    exact h
  simp [resolveTls, h2]

theorem callArgs_dispatch (env : Env) (f : Flags) (s : Serializer) :
    callArgs (dispatch env f s) = dumpArgs env f s := by
  unfold dispatch
  cases resolveDb f <;> rfl

/-- The trace of a run that reaches the engine call. -/
theorem realMain_trace (env : Env) (f : Flags) (s : Serializer)
    (hs : selectSerializer f.output = some s) :
    (realMain env f).trace =
      [Step.makeChan, Step.wgAdd 1, Step.goAggregator, Step.call (dispatch env f s)]
        ++ (match (env.engine (dispatch env f s)).err with
            | none => []
            | some e => [Step.stderrWrite e])
        ++ [Step.closeChan, Step.wgWait]
        ++ (if f.silent then [] else [Step.stderrWrite "\n"]) := by
  unfold realMain
  simp only [hs]
  cases h : (env.engine (dispatch env f s)).err <;> cases f.silent <;> simp [shutdown]

theorem realMain_agg (env : Env) (f : Flags) (s : Serializer)
    (hs : selectSerializer f.output = some s) :
    (realMain env f).agg =
      aggregate f.silent Aggregator.start (env.engine (dispatch env f s)).events := by
  unfold realMain
  simp only [hs]
  cases h : (env.engine (dispatch env f s)).err <;> simp

theorem realMain_exitCode (env : Env) (f : Flags) (s : Serializer)
    (hs : selectSerializer f.output = some s) :
    (realMain env f).exitCode =
      if (env.engine (dispatch env f s)).err = none then 0 else 1 := by
  unfold realMain
  simp only [hs]
  cases h : (env.engine (dispatch env f s)).err <;> simp

theorem realMain_engineCalls (env : Env) (f : Flags) (s : Serializer)
    (hs : selectSerializer f.output = some s) :
    engineCalls (realMain env f).trace = [dispatch env f s] := by
  rw [realMain_trace env f s hs]
  cases h : (env.engine (dispatch env f s)).err <;> cases f.silent <;> simp [engineCalls]

theorem realMain_fatal (env : Env) (f : Flags) (hs : selectSerializer f.output = none) :
    realMain env f =
      ⟨[Step.logFatalf "Failed parsing parameter flag: can only be resp or json"],
        Aggregator.start, 1⟩ := by
  unfold realMain
  simp only [hs]

/-! ## Claims on `realMain` -/

/-- C3: at the notifications (0,5), (1,1), (0,9), a successful engine and the
default flags, the status stream is not the expected one, which has a line
break between the text of database 1 and the second text of database 0: the
code writes none there, only the one before database 1 and the trailing one
at shutdown. -/
theorem realMain_scenario_missing_break :
    streamBytes (statusStream (realMain (scriptedEnv [(0, 5), (1, 1), (0, 9)] none)
        defaultFlags))
      ≠ "\rDatabase 0: 5 keys dumped\n\rDatabase 1: 1 keys dumped\n\rDatabase 0: 9 keys dumped\n"
    ∧ statusStream (realMain (scriptedEnv [(0, 5), (1, 1), (0, 9)] none) defaultFlags)
      = ["\rDatabase 0: 5 keys dumped", "\n", "\rDatabase 1: 1 keys dumped",
          "\rDatabase 0: 9 keys dumped", "\n"]
    ∧ streamBytes (statusStream (realMain (scriptedEnv [(0, 5), (1, 1), (0, 9)] none)
        defaultFlags))
      = "\rDatabase 0: 5 keys dumped\n\rDatabase 1: 1 keys dumped\rDatabase 0: 9 keys dumped\n"
    ∧ (realMain (scriptedEnv [(0, 5), (1, 1), (0, 9)] none) defaultFlags).exitCode = 0 := by
  decide

/-- C5: a run that reaches dispatch performs, after the engine call and the
error message if any, exactly once and in this order: close the channel, wait
for the aggregator, which has then taken every notification, and write one
trailing line break unless silent; the exit code is 0 when the engine
succeeded and 1 when it returned an error. -/
theorem realMain_shutdown (env : Env) (f : Flags) (s : Serializer)
    (hs : selectSerializer f.output = some s) :
    (realMain env f).trace =
        [Step.makeChan, Step.wgAdd 1, Step.goAggregator, Step.call (dispatch env f s)]
          ++ (match (env.engine (dispatch env f s)).err with
              | none => []
              | some e => [Step.stderrWrite e])
          ++ [Step.closeChan, Step.wgWait]
          ++ (if f.silent then [] else [Step.stderrWrite "\n"])
      ∧ (realMain env f).trace.count Step.closeChan = 1
      ∧ (realMain env f).trace.count Step.wgWait = 1
      ∧ (realMain env f).agg =
          aggregate f.silent Aggregator.start (env.engine (dispatch env f s)).events
      ∧ (realMain env f).agg.received = (env.engine (dispatch env f s)).events.length
      ∧ (realMain env f).exitCode =
          (if (env.engine (dispatch env f s)).err = none then 0 else 1) := by
  refine ⟨realMain_trace env f s hs, ?_, ?_, realMain_agg env f s hs, ?_,
    realMain_exitCode env f s hs⟩
  · rw [realMain_trace env f s hs]
    cases h : (env.engine (dispatch env f s)).err <;> cases f.silent <;>
      simp [List.count_cons]
  · rw [realMain_trace env f s hs]
    cases h : (env.engine (dispatch env f s)).err <;> cases f.silent <;>
      simp [List.count_cons]
  · rw [realMain_agg env f s hs, aggregate_received]
    simp [Aggregator.start]

/-- C5, at an engine that sends (0,5) and fails: the shutdown steps follow the
error message and the exit code is 1. -/
theorem realMain_shutdown_witness :
    (realMain (scriptedEnv [(0, 5)] (some "dial error")) defaultFlags).trace =
        [Step.makeChan, Step.wgAdd 1, Step.goAggregator,
          Step.call (dispatch (scriptedEnv [(0, 5)] (some "dial error")) defaultFlags
            Serializer.RESPSerializer),
          Step.stderrWrite "dial error", Step.closeChan, Step.wgWait, Step.stderrWrite "\n"]
      ∧ (realMain (scriptedEnv [(0, 5)] (some "dial error")) defaultFlags).agg.received = 1
      ∧ (realMain (scriptedEnv [(0, 5)] (some "dial error")) defaultFlags).exitCode = 1 := by
  have h := realMain_shutdown (scriptedEnv [(0, 5)] (some "dial error")) defaultFlags
    Serializer.RESPSerializer (by decide)
  exact ⟨h.1, h.2.2.2.2.1, h.2.2.2.2.2⟩

/-- C6: the target is chosen by the presence of `-db`: when it was passed,
with any value, the only engine call is `DumpDB`, with database 0 for the
value 0; when it was not passed the only engine call is `DumpServer`. -/
theorem realMain_target_by_presence (env : Env) (f : Flags) (s : Serializer)
    (hs : selectSerializer f.output = some s) :
    ("db" ∈ f.passed →
        engineCalls (realMain env f).trace
            = [EngineCall.DumpDB (dumpArgs env f s) (f.db % 256)]
          ∧ (f.db = 0 → engineCalls (realMain env f).trace
              = [EngineCall.DumpDB (dumpArgs env f s) 0]))
      ∧ ("db" ∉ f.passed →
          engineCalls (realMain env f).trace = [EngineCall.DumpServer (dumpArgs env f s)]) := by
  rw [realMain_engineCalls env f s hs]
  refine ⟨fun h => ⟨?_, fun h0 => ?_⟩, fun h => ?_⟩
  · simp [dispatch, resolveDb_passed f h]
  · simp [dispatch, resolveDb_passed f h, h0]
  · simp [dispatch, resolveDb_absent f h]

/-- C6, at `-db 0` and at no `-db`, the value of the flag being 0 in both. -/
theorem realMain_target_by_presence_witness :
    engineCalls (realMain (scriptedEnv [] none)
        ⟨"127.0.0.1", 6379, "", 0, "*", false, 1000, 10, true, "resp", false, false,
          "", "", "", ["db"]⟩).trace
      = [EngineCall.DumpDB ⟨"127.0.0.1", 6379, "", none, "*", 10, true, 1000, false,
          Serializer.RESPSerializer⟩ 0]
    ∧ engineCalls (realMain (scriptedEnv [] none) defaultFlags).trace
      = [EngineCall.DumpServer ⟨"127.0.0.1", 6379, "", none, "*", 10, true, 1000, false,
          Serializer.RESPSerializer⟩] :=
  ⟨((realMain_target_by_presence (scriptedEnv [] none)
      ⟨"127.0.0.1", 6379, "", 0, "*", false, 1000, 10, true, "resp", false, false,
        "", "", "", ["db"]⟩ Serializer.RESPSerializer (by decide)).1 (by decide)).2 rfl,
    (realMain_target_by_presence (scriptedEnv [] none) defaultFlags
      Serializer.RESPSerializer (by decide)).2 (by decide)⟩

/-- C7: transport security is chosen by the presence of `-tls`: when it was
passed, whatever its value, the engine gets a handler built with the enabled
flag true and the values of `-cacert`, `-cert` and `-key`; when it was not
passed the engine gets no handler, whatever those values are. -/
theorem realMain_tls_by_presence (env : Env) (f : Flags) (s : Serializer)
    (hs : selectSerializer f.output = some s) :
    engineCalls (realMain env f).trace = [dispatch env f s]
      ∧ ("tls" ∈ f.passed →
          (callArgs (dispatch env f s)).tlshandler
            = some (NewTlsHandler true f.caCert f.cert f.key))
      ∧ ("tls" ∉ f.passed → (callArgs (dispatch env f s)).tlshandler = none) := by
  refine ⟨realMain_engineCalls env f s hs, fun h => ?_, fun h => ?_⟩
  · rw [callArgs_dispatch]
    simp [dumpArgs, resolveTls_passed f h]
  · rw [callArgs_dispatch]
    simp [dumpArgs, resolveTls_absent f h]

/-- C7, at `-tls=false` with no certificate flag (enabled, empty paths) and at
certificate flags without `-tls` (no handler). -/
theorem realMain_tls_by_presence_witness :
    (callArgs (dispatch (scriptedEnv [] none)
        ⟨"127.0.0.1", 6379, "", 0, "*", false, 1000, 10, true, "resp", false, false,
          "", "", "", ["tls"]⟩ Serializer.RESPSerializer)).tlshandler
      = some ⟨true, "", "", ""⟩
    ∧ (callArgs (dispatch (scriptedEnv [] none)
        ⟨"127.0.0.1", 6379, "", 0, "*", false, 1000, 10, true, "resp", false, true,
          "ca.pem", "c.pem", "k.pem", ["cacert", "cert", "key"]⟩
        Serializer.RESPSerializer)).tlshandler
      = none :=
  ⟨(realMain_tls_by_presence (scriptedEnv [] none)
      ⟨"127.0.0.1", 6379, "", 0, "*", false, 1000, 10, true, "resp", false, false,
        "", "", "", ["tls"]⟩ Serializer.RESPSerializer (by decide)).2.1 (by decide),
    (realMain_tls_by_presence (scriptedEnv [] none)
      ⟨"127.0.0.1", 6379, "", 0, "*", false, 1000, 10, true, "resp", false, true,
        "ca.pem", "c.pem", "k.pem", ["cacert", "cert", "key"]⟩
      Serializer.RESPSerializer (by decide)).2.2 (by decide)⟩

/-- C8: the selector `resp` hands `RESPSerializer` to the engine, `commands`
hands `RedisCmdSerializer`, and with any other string the run is the fatal log
call alone, with exit status 1: no channel, no aggregator, no engine call. -/
theorem realMain_output_selector (env : Env) (f : Flags) :
    (f.output = "resp" →
        ∃ c, engineCalls (realMain env f).trace = [c]
          ∧ (callArgs c).serializer = Serializer.RESPSerializer)
      ∧ (f.output = "commands" →
        ∃ c, engineCalls (realMain env f).trace = [c]
          ∧ (callArgs c).serializer = Serializer.RedisCmdSerializer)
      ∧ (f.output ≠ "resp" → f.output ≠ "commands" →
        (realMain env f).trace
            = [Step.logFatalf "Failed parsing parameter flag: can only be resp or json"]
          ∧ (realMain env f).exitCode = 1
          ∧ Step.makeChan ∉ (realMain env f).trace
          ∧ Step.goAggregator ∉ (realMain env f).trace
          ∧ engineCalls (realMain env f).trace = []
          ∧ (realMain env f).agg = Aggregator.start) := by
  refine ⟨fun h => ?_, fun h => ?_, fun h1 h2 => ?_⟩
  · have hs : selectSerializer f.output = some Serializer.RESPSerializer := by
      rw [h]
      decide
    exact ⟨_, realMain_engineCalls env f _ hs, by rw [callArgs_dispatch]; rfl⟩
  · have hs : selectSerializer f.output = some Serializer.RedisCmdSerializer := by
      rw [h]
      decide
    exact ⟨_, realMain_engineCalls env f _ hs, by rw [callArgs_dispatch]; rfl⟩
  · have hs : selectSerializer f.output = none := by
      simp [selectSerializer, h1, h2]
    rw [realMain_fatal env f hs]
    simp [engineCalls]

/-- C8, at the selector `RESP`: a fatal error with exit status 1 and no engine
call. -/
theorem realMain_output_selector_witness :
    (realMain (scriptedEnv [(0, 5)] none)
        ⟨"127.0.0.1", 6379, "", 0, "*", false, 1000, 10, true, "RESP", false, false,
          "", "", "", ["output"]⟩).exitCode = 1
    ∧ engineCalls (realMain (scriptedEnv [(0, 5)] none)
        ⟨"127.0.0.1", 6379, "", 0, "*", false, 1000, 10, true, "RESP", false, false,
          "", "", "", ["output"]⟩).trace = [] := by
  have h := (realMain_output_selector (scriptedEnv [(0, 5)] none)
    ⟨"127.0.0.1", 6379, "", 0, "*", false, 1000, 10, true, "RESP", false, false,
      "", "", "", ["output"]⟩).2.2 (by decide) (by decide)
  exact ⟨h.2.1, h.2.2.2.2.1⟩

/-- C9: with silent mode on and a successful engine, the aggregator takes
every notification, nothing is written to the status stream, neither by the
aggregator nor at shutdown, and the exit code is 0. -/
theorem realMain_silent (env : Env) (f : Flags) (s : Serializer)
    (hs : selectSerializer f.output = some s) (hq : f.silent = true)
    (hok : (env.engine (dispatch env f s)).err = none) :
    (realMain env f).agg.received = (env.engine (dispatch env f s)).events.length
      ∧ (realMain env f).agg.written = []
      ∧ mainWrites (realMain env f).trace = []
      ∧ statusStream (realMain env f) = []
      ∧ streamBytes (statusStream (realMain env f)) = ""
      ∧ (realMain env f).exitCode = 0 := by
  have h1 : (realMain env f).agg.written = [] := by
    rw [realMain_agg env f s hs, hq, aggregate_silent_written]
    rfl
  have h2 : mainWrites (realMain env f).trace = [] := by
    rw [realMain_trace env f s hs, hq, hok]
    simp [mainWrites]
  have h3 : statusStream (realMain env f) = [] := by
    simp [statusStream, h1, h2]
  refine ⟨?_, h1, h2, h3, ?_, ?_⟩
  · rw [realMain_agg env f s hs, aggregate_received]
    simp [Aggregator.start]
  · rw [h3]
    rfl
  · rw [realMain_exitCode env f s hs, hok]
    rfl

/-- C9, at the notifications (0,5), (1,1), (0,9) with `-s` passed: three
notifications taken, no byte written, exit code 0. -/
theorem realMain_silent_witness :
    (realMain (scriptedEnv [(0, 5), (1, 1), (0, 9)] none)
        ⟨"127.0.0.1", 6379, "", 0, "*", false, 1000, 10, true, "resp", true, false,
          "", "", "", ["s"]⟩).agg.received = 3
    ∧ streamBytes (statusStream (realMain (scriptedEnv [(0, 5), (1, 1), (0, 9)] none)
        ⟨"127.0.0.1", 6379, "", 0, "*", false, 1000, 10, true, "resp", true, false,
          "", "", "", ["s"]⟩)) = ""
    ∧ (realMain (scriptedEnv [(0, 5), (1, 1), (0, 9)] none)
        ⟨"127.0.0.1", 6379, "", 0, "*", false, 1000, 10, true, "resp", true, false,
          "", "", "", ["s"]⟩).exitCode = 0 := by
  have h := realMain_silent (scriptedEnv [(0, 5), (1, 1), (0, 9)] none)
    ⟨"127.0.0.1", 6379, "", 0, "*", false, 1000, 10, true, "resp", true, false,
      "", "", "", ["s"]⟩ Serializer.RESPSerializer (by decide) rfl rfl
  exact ⟨h.1, h.2.2.2.2.1, h.2.2.2.2.2⟩

/-- C10: the database handed to `DumpDB` is the value of `-db` modulo 256; it
is the value itself exactly when the value is below 256, and the value 256
selects database 0, the run reaching the engine call all the same. -/
theorem realMain_db_uint8 (env : Env) (f : Flags) (s : Serializer)
    (hs : selectSerializer f.output = some s) (hdb : "db" ∈ f.passed) :
    engineCalls (realMain env f).trace
        = [EngineCall.DumpDB (dumpArgs env f s) (f.db % 256)]
      ∧ (f.db % 256 = f.db ↔ f.db < 256)
      ∧ (f.db = 256 →
          engineCalls (realMain env f).trace = [EngineCall.DumpDB (dumpArgs env f s) 0]) := by
  have h1 : engineCalls (realMain env f).trace
      = [EngineCall.DumpDB (dumpArgs env f s) (f.db % 256)] := by
    rw [realMain_engineCalls env f s hs]
    simp [dispatch, resolveDb_passed f hdb]
  refine ⟨h1, ?_, fun h => ?_⟩
  · constructor
    · intro h
      have := Nat.mod_lt f.db (by decide : 256 > 0)
      omega
    · exact Nat.mod_eq_of_lt
  · rw [h1, h]

/-- C10, at `-db 256` and `-db 300`: databases 0 and 44. -/
theorem realMain_db_uint8_witness :
    engineCalls (realMain (scriptedEnv [] none)
        ⟨"127.0.0.1", 6379, "", 256, "*", false, 1000, 10, true, "resp", false, false,
          "", "", "", ["db"]⟩).trace
      = [EngineCall.DumpDB ⟨"127.0.0.1", 6379, "", none, "*", 10, true, 1000, false,
          Serializer.RESPSerializer⟩ 0]
    ∧ engineCalls (realMain (scriptedEnv [] none)
        ⟨"127.0.0.1", 6379, "", 300, "*", false, 1000, 10, true, "resp", false, false,
          "", "", "", ["db"]⟩).trace
      = [EngineCall.DumpDB ⟨"127.0.0.1", 6379, "", none, "*", 10, true, 1000, false,
          Serializer.RESPSerializer⟩ 44] :=
  ⟨(realMain_db_uint8 (scriptedEnv [] none)
      ⟨"127.0.0.1", 6379, "", 256, "*", false, 1000, 10, true, "resp", false, false,
        "", "", "", ["db"]⟩ Serializer.RESPSerializer (by decide) (by decide)).2.2 rfl,
    (realMain_db_uint8 (scriptedEnv [] none)
      ⟨"127.0.0.1", 6379, "", 300, "*", false, 1000, 10, true, "resp", false, false,
        "", "", "", ["db"]⟩ Serializer.RESPSerializer (by decide) (by decide)).1⟩

end RedisDump
